import Mathlib

/-!
Shallow embedding of the `simpleipmi` webpanel camera code
(`src/webpanel/backend/camera_module.py` and
`src/webpanel/backend/module1.py`) for verification of its
natural-language specification.

The OpenCV backend (`cv2`) is modelled as an explicit record of
observable behaviour: whether `VideoCapture(i).isOpened()` succeeds for
each index, the successive results of `cap.read()`, the resolution read
back via `cap.get(...)`, and the behaviour of `cv2.imencode`.  The two
Python generator functions are modelled as explicit state machines with
a `next` step (one `next()` call by the consumer) and a `close`
operation (the consumer abandoning the generator, which in Python raises
`GeneratorExit` at the suspended `yield` and runs the `finally` block).
Every side effect on the device (open attempts, `release()` calls,
resolution-mismatch warnings, `imencode` invocations) is logged in an
explicit effects record.
-/

/-- Result of one `cap.read()` call by the streaming loop: either the
read fails (`success` is `False`: device disconnected / end of stream)
or it returns one raw frame, modelled as its byte content. -/
inductive ReadResult where
  | fail : ReadResult
  | frame (data : List Nat) : ReadResult
deriving DecidableEq

/-- Model of the OpenCV capture backend seen by one streaming session:
`openOk i` is whether `VideoCapture(i)` ends up with `isOpened()` true;
`reads` are the successive results of `cap.read()` (an exhausted list
behaves like a failed read); `actualRes` is the (width, height) pair
read back by `cap.get(CAP_PROP_FRAME_WIDTH/HEIGHT)`; `imencode params
frame` is the `(ret, buffer)` result of `cv2.imencode('.jpg', frame,
params)`. -/
structure Backend where
  openOk : Int → Bool
  reads : List ReadResult
  actualRes : Int × Int
  imencode : List (Nat × Nat) → List Nat → Bool × List Nat

/-- Log of the externally observable side effects of a possibly incomplete run of
a generator: the device indices passed to `VideoCapture`, the number of
`cap.release()` calls, the number of resolution-mismatch warnings
printed, and the parameter list passed to each `cv2.imencode` call in
order. -/
structure Effects where
  openCalls : List Int
  releaseCalls : Nat
  warnings : Nat
  encodeCalls : List (List (Nat × Nat))
deriving DecidableEq

/-- The empty effects log. -/
def Effects.nil : Effects := ⟨[], 0, 0, []⟩

/-- Concatenation of two effects logs, in temporal order. -/
def Effects.app (e f : Effects) : Effects :=
  ⟨e.openCalls ++ f.openCalls, e.releaseCalls + f.releaseCalls,
   e.warnings + f.warnings, e.encodeCalls ++ f.encodeCalls⟩

/-- ASCII bytes of a Python byte-string literal. -/
def strBytes (s : String) : List Nat := s.data.map Char.toNat

/-- The multipart chunk yielded for one encoded frame, exactly the bytes
of `b'--frame\r\n' b'Content-Type: image/jpeg\r\n\r\n' + frame_bytes +
b'\r\n'` from the two `generate_frames` functions. -/
def frameChunk (jpeg : List Nat) : List Nat :=
  strBytes ("--frame\r\n") ++ strBytes ("Content-Type: image/jpeg\r\n\r\n")
    ++ jpeg ++ strBytes ("\r\n")

/-- Numeric value of the OpenCV constant `cv2.IMWRITE_JPEG_QUALITY`. -/
def IMWRITE_JPEG_QUALITY : Nat := 1

/-- The encode-parameter list `[int(cv2.IMWRITE_JPEG_QUALITY), 80]` that
`CameraManager.generate_frames` (module1.py line 198) passes to every
`cv2.imencode` call, modelled as a flag/value association list. -/
def jpegParams80 : List (Nat × Nat) := [(IMWRITE_JPEG_QUALITY, 80)]

/-- One pass of the `while True:` body of `generate_frames` from the top
of the loop up to the next suspension: reads frames until one `yield`
(returning `some chunk`) or until a read fails (`none`, i.e. `break`),
skipping frames whose `imencode` returns a false `ret` (`continue`).
Returns the yielded chunk if any, the unread remainder of the backend's
read results, and the `imencode` parameter lists used, in call order.
`params` is the parameter list the enclosing function passes to
`cv2.imencode` at its one call site. -/
def runLoop (b : Backend) (params : List (Nat × Nat)) :
    List ReadResult → Option (List Nat) × List ReadResult × List (List (Nat × Nat))
  | [] => (none, [], [])
  | .fail :: rest => (none, rest, [])
  | .frame data :: rest =>
    let r := b.imencode params data
    if r.1 then
      (some (frameChunk r.2), rest, [params])
    else
      match runLoop b params rest with
      | (c, rem, es) => (c, rem, params :: es)

/-- State of the `CameraManager.generate_frames` generator object
(module1.py): not yet started (body not entered), suspended at the
`yield` inside the `try` block with the given read results still
pending, or finished (the `finally` block has already run). -/
inductive GenState where
  | start (device_id : Int) (resolution : Int × Int)
  | streaming (reads : List ReadResult)
  | finished
deriving DecidableEq

/-- One `next()` call on a `CameraManager.generate_frames` generator
(module1.py lines 154-210): from `start`, open `VideoCapture(device_id,
backend)`; on open failure `return` immediately (no release, body never
reached the `try`); on success, set and read back the resolution,
print the mismatch warning when the actual resolution differs from the
request, then run the loop to its first `yield` or `break`; from
`streaming`, resume the loop.  A `break` (failed read) leaves the `try`
block, so the `finally` releases the capture exactly then.  Returns the
yielded chunk (`none` means `StopIteration`), the new generator state,
and the effects of this step. -/
def cmNext (b : Backend) : GenState → Option (List Nat) × GenState × Effects
  | .start d res =>
    if b.openOk d then
      let w : Nat := if b.actualRes ≠ res then 1 else 0
      match runLoop b jpegParams80 b.reads with
      | (some c, rest, es) => (some c, .streaming rest, ⟨[d], 0, w, es⟩)
      | (none, _, es) => (none, .finished, ⟨[d], 1, w, es⟩)
    else
      (none, .finished, ⟨[d], 0, 0, []⟩)
  | .streaming reads =>
    match runLoop b jpegParams80 reads with
    | (some c, rest, es) => (some c, .streaming rest, ⟨[], 0, 0, es⟩)
    | (none, _, es) => (none, .finished, ⟨[], 1, 0, es⟩)
  | .finished => (none, .finished, Effects.nil)

/-- Closing a `CameraManager.generate_frames` generator without
exhausting it (Python raises `GeneratorExit` at the suspended `yield`):
if it is suspended inside the `try` block the `finally` runs and
releases the capture once; a not-yet-started or already-finished
generator runs nothing. -/
def cmClose : GenState → Effects
  | .start _ _ => Effects.nil
  | .streaming _ => ⟨[], 1, 0, []⟩
  | .finished => Effects.nil

/-- A value the (excluded) HTTP layer may pass as `device_id` to the
module-level `generate_frames` of camera_module.py, which accepts any
value and validates it with `int(device_id)`. -/
inductive PyValue where
  | int (n : Int)
  | str (s : String)
  | pyNone
deriving DecidableEq

/-- Accumulating decimal parser over a character list: fails on the
first non-digit character. -/
def parseNatAux : List Char → Nat → Option Nat
  | [], acc => some acc
  | c :: cs, acc =>
    if 48 ≤ c.toNat ∧ c.toNat ≤ 57 then parseNatAux cs (acc * 10 + (c.toNat - 48))
    else none

/-- A non-empty all-digit character list as a natural number. -/
def parseNat : List Char → Option Nat
  | [] => none
  | c :: cs => parseNatAux (c :: cs) 0

/-- Decimal integer parsing of a string with optional leading sign,
modelling Python's `int` applied to a `str`:  `some` exactly on
(optionally signed) digit strings, `none` on any other token. -/
def pyStrToInt (s : String) : Option Int :=
  match s.data with
  | '-' :: cs => (parseNat cs).map (fun n => -(n : Int))
  | '+' :: cs => (parseNat cs).map (fun n => (n : Int))
  | cs => (parseNat cs).map (fun n => (n : Int))

/-- Python's `int(x)` as used by camera_module.py lines 45-49: succeeds
on an `int`, parses a decimal string with optional sign, and raises
`ValueError`/`TypeError` (modelled as `none`) otherwise. -/
def pyInt : PyValue → Option Int
  | .int n => some n
  | .str s => pyStrToInt s
  | .pyNone => none

/-- State of the module-level `generate_frames` generator object
(camera_module.py): identical to `GenState` except that the not-started
state still holds the unvalidated `device_id` value. -/
inductive CGenState where
  | start (device_id : PyValue) (resolution : Int × Int)
  | streaming (reads : List ReadResult)
  | finished
deriving DecidableEq

/-- One `next()` call on a module-level `generate_frames` generator
(camera_module.py lines 38-96): from `start`, first `int(device_id)`;
on failure `return` with no effects at all.  Then open the device; on
open failure `return` (no release).  On success, set the resolution,
read back and print the actual one (no mismatch warning in this
variant), and run the loop, whose `imencode` call passes no parameter
list (camera_module.py line 84).  The `try`/`finally` is as in
`cmNext`. -/
def cgNext (b : Backend) : CGenState → Option (List Nat) × CGenState × Effects
  | .start d _res =>
    match pyInt d with
    | none => (none, .finished, Effects.nil)
    | some i =>
      if b.openOk i then
        match runLoop b [] b.reads with
        | (some c, rest, es) => (some c, .streaming rest, ⟨[i], 0, 0, es⟩)
        | (none, _, es) => (none, .finished, ⟨[i], 1, 0, es⟩)
      else
        (none, .finished, ⟨[i], 0, 0, []⟩)
  | .streaming reads =>
    match runLoop b [] reads with
    | (some c, rest, es) => (some c, .streaming rest, ⟨[], 0, 0, es⟩)
    | (none, _, es) => (none, .finished, ⟨[], 1, 0, es⟩)
  | .finished => (none, .finished, Effects.nil)

/-- Closing a module-level `generate_frames` generator: as `cmClose`. -/
def cgClose : CGenState → Effects
  | .start _ _ => Effects.nil
  | .streaming _ => ⟨[], 1, 0, []⟩
  | .finished => Effects.nil

/-- The consumer (the HTTP layer's `for chunk in generator:` loop)
pulling at most `n` chunks from a generator with step function `step`:
stops early when the generator raises `StopIteration`.  Returns the
chunks received in order, the generator's final state, and the
accumulated effects. -/
def pullN {σ : Type} (step : σ → Option (List Nat) × σ × Effects) :
    Nat → σ → List (List Nat) × σ × Effects
  | 0, s => ([], s, Effects.nil)
  | n + 1, s =>
    match step s with
    | (none, s1, e) => ([], s1, e)
    | (some c, s1, e) =>
      match pullN step n s1 with
      | (cs, s2, f) => (c :: cs, s2, e.app f)

/-- The label recorded for an openable device index, the f-string
`f"Device {i}"` of `get_available_cameras`. -/
def deviceLabel (i : Nat) : String := "Device " ++ toString i

/-- The probe loop of `get_available_cameras` (camera_module.py lines
23-36, equivalently module1.py lines 146-152) over an explicit list of
indices: each index is passed to `cv2.VideoCapture` (one open attempt);
when `isOpened()` is true the index is recorded with its label and the
capture is released immediately; otherwise nothing is released.
Returns the association list of available cameras in probe order, the
indices passed to `VideoCapture`, and the indices on which `release()`
was called. -/
def enumProbe (openOk : Nat → Bool) :
    List Nat → List (Nat × String) × List Nat × List Nat
  | [] => ([], [], [])
  | i :: rest =>
    match enumProbe openOk rest with
    | (m, o, r) =>
      if openOk i then ((i, deviceLabel i) :: m, i :: o, i :: r)
      else (m, i :: o, r)

/-- `get_available_cameras()`: probes the fixed range `range(10)`. -/
def get_available_cameras (openOk : Nat → Bool) :
    List (Nat × String) × List Nat × List Nat :=
  enumProbe openOk (List.range 10)

/-- Sanity check: a non-numeric token is rejected by `int()`. -/
theorem pyInt_nonnumeric : pyInt (.str ("abc")) = none := rfl

/-- Sanity check: a signed numeric token parses. -/
theorem pyInt_signed : pyInt (.str ("-3")) = some (-3) := rfl

/-! ### Helper lemmas about the streaming loop -/

/-- A frame whose encoding fails is skipped by the loop: the pass
behaves as on the remaining reads, with one more `imencode` call
logged. -/
theorem runLoop_skip (b : Backend) (P : List (Nat × Nat)) (f : List Nat)
    (L : List ReadResult) (hE : (b.imencode P f).1 = false) :
    runLoop b P (ReadResult.frame f :: L) =
      ((runLoop b P L).1, (runLoop b P L).2.1, P :: (runLoop b P L).2.2) := by
  rw [runLoop]
  rcases hR : runLoop b P L with ⟨c, rem, es⟩
  simp [hE, hR]

/-- Pulling from a generator suspended before a frame whose encoding
fails behaves as pulling past that frame, with one extra `imencode`
call logged. -/
theorem pull_streaming_skip (b : Backend) (f : List Nat) (L : List ReadResult)
    (hE : (b.imencode jpegParams80 f).1 = false) (n : Nat) (hn : 1 ≤ n) :
    pullN (cmNext b) n (.streaming (ReadResult.frame f :: L)) =
      ((pullN (cmNext b) n (.streaming L)).1,
       (pullN (cmNext b) n (.streaming L)).2.1,
       ⟨(pullN (cmNext b) n (.streaming L)).2.2.openCalls,
        (pullN (cmNext b) n (.streaming L)).2.2.releaseCalls,
        (pullN (cmNext b) n (.streaming L)).2.2.warnings,
        jpegParams80 :: (pullN (cmNext b) n (.streaming L)).2.2.encodeCalls⟩) := by
  obtain ⟨m, rfl⟩ : ∃ m, n = m + 1 := ⟨n - 1, by omega⟩
  have hskip := runLoop_skip b jpegParams80 f L hE
  rcases hR : runLoop b jpegParams80 L with ⟨c, rem, es⟩
  rw [hR] at hskip
  cases c with
  | none => simp [pullN, cmNext, hR, hskip]
  | some ch =>
    rcases hP : pullN (cmNext b) m (.streaming rem) with ⟨cs, s2, e2⟩
    simp [pullN, cmNext, hR, hskip, hP, Effects.app]

/-- Draining a generator suspended on `N` pending frames followed by a
failed read: one chunk per frame whose encoding succeeds, in order,
then the loop breaks, the `finally` releases the capture once, and the
generator is finished; one `imencode` call was made per frame. -/
theorem pull_streaming_drain (b : Backend) (fs : List (List Nat))
    (rest : List ReadResult) :
    ∀ n, (fs.filter (fun f => (b.imencode jpegParams80 f).1)).length + 1 ≤ n →
    pullN (cmNext b) n
        (.streaming (fs.map ReadResult.frame ++ ReadResult.fail :: rest)) =
      (fs.filterMap (fun f => if (b.imencode jpegParams80 f).1
          then some (frameChunk (b.imencode jpegParams80 f).2) else none),
       GenState.finished,
       ⟨[], 1, 0, fs.map (fun _ => jpegParams80)⟩) := by
  induction fs with
  | nil =>
    intro n hn
    obtain ⟨m, rfl⟩ : ∃ m, n = m + 1 := ⟨n - 1, by omega⟩
    simp [pullN, cmNext, runLoop]
  | cons f fs ih =>
    intro n hn
    cases hE : (b.imencode jpegParams80 f).1 with
    | false =>
      rw [List.filter_cons] at hn
      simp only [hE, if_false] at hn
      have h1 := pull_streaming_skip b f
        (fs.map ReadResult.frame ++ ReadResult.fail :: rest) hE n (by omega)
      rw [List.map_cons, List.cons_append, h1, ih n hn]
      simp [hE]
    | true =>
      rw [List.filter_cons] at hn
      simp only [hE, if_true] at hn
      obtain ⟨m, rfl⟩ : ∃ m, n = m + 1 := ⟨n - 1, by omega⟩
      have h2 := ih m (by simpa using hn)
      rcases hP : pullN (cmNext b) m
          (.streaming (fs.map ReadResult.frame ++ ReadResult.fail :: rest))
        with ⟨cs, s2, e2⟩
      rw [hP] at h2
      simp [pullN, cmNext, runLoop, hE, hP, h2, Effects.app]

/-- The first `next()` of a successfully opening generator behaves as
the suspended loop on the backend's reads, with the open attempt and
the possible resolution-mismatch warning logged additionally. -/
theorem pull_start_open (b : Backend) (d : Int) (res : Int × Int) (n : Nat)
    (hOpen : b.openOk d = true) (hn : 1 ≤ n) :
    pullN (cmNext b) n (.start d res) =
      ((pullN (cmNext b) n (.streaming b.reads)).1,
       (pullN (cmNext b) n (.streaming b.reads)).2.1,
       ⟨d :: (pullN (cmNext b) n (.streaming b.reads)).2.2.openCalls,
        (pullN (cmNext b) n (.streaming b.reads)).2.2.releaseCalls,
        (if b.actualRes ≠ res then 1 else 0)
          + (pullN (cmNext b) n (.streaming b.reads)).2.2.warnings,
        (pullN (cmNext b) n (.streaming b.reads)).2.2.encodeCalls⟩) := by
  obtain ⟨m, rfl⟩ : ∃ m, n = m + 1 := ⟨n - 1, by omega⟩
  rcases hR : runLoop b jpegParams80 b.reads with ⟨c, rem, es⟩
  cases c with
  | none => simp [pullN, cmNext, hOpen, hR]
  | some ch =>
    rcases hP : pullN (cmNext b) m (.streaming rem) with ⟨cs, s2, e2⟩
    simp [pullN, cmNext, hOpen, hR, hP, Effects.app]

/-- Full-consumption run of `CameraManager.generate_frames` against a
backend whose reads are `N` frames followed by a failed read: one chunk
per successfully encoded frame in order, generator finished, one open
attempt, exactly one release, a mismatch warning iff the negotiated
resolution differs from the request, one `imencode` call per frame. -/
theorem cm_full_run (b : Backend) (d : Int) (res : Int × Int)
    (fs : List (List Nat)) (rest : List ReadResult) (n : Nat)
    (hOpen : b.openOk d = true)
    (hReads : b.reads = fs.map ReadResult.frame ++ ReadResult.fail :: rest)
    (hn : (fs.filter (fun f => (b.imencode jpegParams80 f).1)).length + 1 ≤ n) :
    pullN (cmNext b) n (.start d res) =
      (fs.filterMap (fun f => if (b.imencode jpegParams80 f).1
          then some (frameChunk (b.imencode jpegParams80 f).2) else none),
       GenState.finished,
       ⟨[d], 1, (if b.actualRes ≠ res then 1 else 0),
        fs.map (fun _ => jpegParams80)⟩) := by
  have h1 := pull_start_open b d res n hOpen (by omega)
  rw [hReads] at h1
  rw [pull_streaming_drain b fs rest n hn] at h1
  simpa using h1

/-- `filterMap` with an always-true test is `map`. -/
theorem filterMap_if_all {α β : Type} (p : α → Bool) (g : α → β) :
    ∀ fs : List α, (∀ f ∈ fs, p f = true) →
    fs.filterMap (fun f => if p f then some (g f) else none) = fs.map g := by
  intro fs h
  induction fs with
  | nil => simp
  | cons f fs ih =>
    have hf := h f (by simp)
    simp [hf, ih (fun x hx => h x (by simp [hx]))]

/-- Pulling `M` chunks from a generator suspended on at least `M`
frames that all encode successfully: the first `M` chunks in frame
order, the generator still suspended inside the `try` block on the
remaining frames, no release yet, one `imencode` call per pulled
frame. -/
theorem pull_streaming_take (b : Backend) :
    ∀ (M : Nat) (fs : List (List Nat)) (tail : List ReadResult),
    (∀ f ∈ fs, (b.imencode jpegParams80 f).1 = true) → M ≤ fs.length →
    pullN (cmNext b) M (.streaming (fs.map ReadResult.frame ++ tail)) =
      ((fs.take M).map (fun f => frameChunk (b.imencode jpegParams80 f).2),
       .streaming ((fs.drop M).map ReadResult.frame ++ tail),
       ⟨[], 0, 0, (fs.take M).map (fun _ => jpegParams80)⟩) := by
  intro M
  induction M with
  | zero => intro fs tail hAll hM; simp [pullN, Effects.nil]
  | succ m ih =>
    intro fs tail hAll hM
    cases fs with
    | nil => simp at hM
    | cons f fs =>
      have hf := hAll f (by simp)
      have h2 := ih fs tail (fun x hx => hAll x (by simp [hx]))
        (by simpa using hM)
      rcases hP : pullN (cmNext b) m
          (.streaming (fs.map ReadResult.frame ++ tail)) with ⟨cs, s2, e2⟩
      rw [hP] at h2
      simp [pullN, cmNext, runLoop, hf, hP, h2, Effects.app]

/-- The probe loop of `get_available_cameras` over any index list:
the resulting map records exactly the indices that opened, in probe
order, each with its label; every index is passed to `VideoCapture`
once; `release()` is called exactly on the indices that opened. -/
theorem enumProbe_spec (openOk : Nat → Bool) :
    ∀ L : List Nat,
      (enumProbe openOk L).1
          = (L.filter openOk).map (fun i => (i, deviceLabel i)) ∧
      (enumProbe openOk L).2.1 = L ∧
      (enumProbe openOk L).2.2 = L.filter openOk := by
  intro L
  induction L with
  | nil => simp [enumProbe]
  | cons i rest ih =>
    rcases hR : enumProbe openOk rest with ⟨m, o, r⟩
    rw [hR] at ih
    obtain ⟨ih1, ih2, ih3⟩ := ih
    cases hO : openOk i with
    | false =>
      refine ⟨?_, ?_, ?_⟩
      · simpa [enumProbe, hR, hO, List.filter_cons] using ih1
      · simpa [enumProbe, hR, hO] using ih2
      · simpa [enumProbe, hR, hO, List.filter_cons] using ih3
    | true =>
      refine ⟨?_, ?_, ?_⟩
      · simpa [enumProbe, hR, hO, List.filter_cons] using ih1
      · simpa [enumProbe, hR, hO] using ih2
      · simpa [enumProbe, hR, hO, List.filter_cons] using ih3

/-- Every `imencode` parameter list logged by one loop pass is the one
the enclosing generator passes at its single call site. -/
theorem runLoop_encodes (b : Backend) (P : List (Nat × Nat)) :
    ∀ (L : List ReadResult) (ps : List (Nat × Nat)),
      ps ∈ (runLoop b P L).2.2 → ps = P := by
  intro L
  induction L with
  | nil => simp [runLoop]
  | cons r rest ih =>
    intro ps hps
    cases r with
    | fail => simp [runLoop] at hps
    | frame data =>
      rw [runLoop] at hps
      cases hE : (b.imencode P data).1 with
      | true => simp [hE] at hps; exact hps
      | false =>
        rcases hR : runLoop b P rest with ⟨c, rem, es⟩
        rw [hR] at hps
        simp [hE] at hps
        rcases hps with h | h
        · exact h
        · exact ih ps (by rw [hR]; exact h)

/-- Every `imencode` call made during one `next()` of
`CameraManager.generate_frames` passes the fixed quality-80 parameter
list. -/
theorem cmNext_encodes (b : Backend) (s : GenState) :
    ∀ ps ∈ (cmNext b s).2.2.encodeCalls, ps = jpegParams80 := by
  intro ps hps
  cases s with
  | start d res =>
    rw [cmNext] at hps
    cases hO : b.openOk d with
    | false => simp [hO, Effects.nil] at hps
    | true =>
      rcases hR : runLoop b jpegParams80 b.reads with ⟨c, rem, es⟩
      rw [hO, hR] at hps
      cases c with
      | none =>
        simp at hps
        exact runLoop_encodes b jpegParams80 b.reads ps (by rw [hR]; exact hps)
      | some ch =>
        simp at hps
        exact runLoop_encodes b jpegParams80 b.reads ps (by rw [hR]; exact hps)
  | streaming reads =>
    rw [cmNext] at hps
    rcases hR : runLoop b jpegParams80 reads with ⟨c, rem, es⟩
    rw [hR] at hps
    cases c with
    | none =>
      simp at hps
      exact runLoop_encodes b jpegParams80 reads ps (by rw [hR]; exact hps)
    | some ch =>
      simp at hps
      exact runLoop_encodes b jpegParams80 reads ps (by rw [hR]; exact hps)
  | finished => simp [cmNext, Effects.nil] at hps

/-- Every `imencode` call logged over any consumer run of
`CameraManager.generate_frames` passes the fixed quality-80 parameter
list. -/
theorem pullN_encodes (b : Backend) :
    ∀ (n : Nat) (s : GenState) (ps : List (Nat × Nat)),
      ps ∈ (pullN (cmNext b) n s).2.2.encodeCalls → ps = jpegParams80 := by
  intro n
  induction n with
  | zero => intro s ps hps; simp [pullN, Effects.nil] at hps
  | succ m ih =>
    intro s ps hps
    rw [pullN] at hps
    rcases hS : cmNext b s with ⟨c, s1, e⟩
    rw [hS] at hps
    cases c with
    | none =>
      exact cmNext_encodes b s ps (by rw [hS]; exact hps)
    | some ch =>
      rcases hP : pullN (cmNext b) m s1 with ⟨cs, s2, e2⟩
      simp [hP, Effects.app] at hps
      rcases hps with h | h
      · exact cmNext_encodes b s ps (by rw [hS]; exact h)
      · exact ih s1 ps (by rw [hP]; exact h)

/-- `filter` with an always-true test is the identity. -/
theorem filter_all_true {α : Type} (p : α → Bool) :
    ∀ l : List α, (∀ x ∈ l, p x = true) → l.filter p = l := by
  intro l h
  induction l with
  | nil => rfl
  | cons x l ih =>
    have hx := h x (by simp)
    simp [List.filter_cons, hx, ih (fun y hy => h y (by simp [hy]))]

/-- `filterMap` over a list whose every element passes the test except
one in the middle drops exactly that element. -/
theorem filterMap_skip_middle {α β : Type} (p : α → Bool) (g : α → β)
    (u v : List α) (fk : α)
    (hU : ∀ f ∈ u, p f = true) (hV : ∀ f ∈ v, p f = true)
    (hK : p fk = false) :
    (u ++ fk :: v).filterMap (fun f => if p f then some (g f) else none)
      = (u ++ v).map g := by
  induction u with
  | nil => simp [List.filterMap_cons, hK, filterMap_if_all p g v hV]
  | cons x u ih =>
    have hx := hU x (by simp)
    simp [List.filterMap_cons, hx,
      ih (fun y hy => hU y (by simp [hy]))]

/-! ### Concrete backends used by the witnesses -/

/-- Witness backend: every index opens, three readable frames then a
failed read, identity encoder, negotiated resolution 1280x720. -/
def bTest : Backend :=
  ⟨fun _ => true,
   [ReadResult.frame [10], ReadResult.frame [20], ReadResult.frame [30],
    ReadResult.fail],
   (1280, 720), fun _ f => (true, f)⟩

/-- Witness backend whose frame `[20]` fails to encode. -/
def bSkip : Backend :=
  ⟨fun _ => true,
   [ReadResult.frame [10], ReadResult.frame [20], ReadResult.frame [30],
    ReadResult.fail],
   (640, 480), fun _ f => (!(f == [20]), f)⟩

/-- Witness backend on which every open attempt fails. -/
def bFail : Backend := ⟨fun _ => false, [], (640, 480), fun _ f => (true, f)⟩

/-- Witness backend with a single readable frame. -/
def bOne : Backend :=
  ⟨fun _ => true, [ReadResult.frame [7]], (640, 480), fun _ f => (true, f)⟩

/-! ### Claim theorems -/

/-- C1: against a backend that opens successfully and yields exactly
`N` readable frames (all encoding successfully) before one read fails,
`generate_frames` yields exactly `N` chunks, one per pulled frame in
frame-pull order, each equal to the bytes `b'--frame\r\n' ++
b'Content-Type: image/jpeg\r\n\r\n' ++ <JPEG bytes of that frame> ++
b'\r\n'`; then the sequence terminates (the generator is finished and
stays so for any sufficient pull budget) and exactly one release call
is issued in total. -/
theorem c1_chunk_per_frame (b : Backend) (d : Int) (res : Int × Int)
    (fs : List (List Nat)) (rest : List ReadResult) (n : Nat)
    (hOpen : b.openOk d = true)
    (hReads : b.reads = fs.map ReadResult.frame ++ ReadResult.fail :: rest)
    (hAll : ∀ f ∈ fs, (b.imencode jpegParams80 f).1 = true)
    (hn : fs.length + 1 ≤ n) :
    pullN (cmNext b) n (.start d res) =
      (fs.map (fun f => strBytes ("--frame\r\n")
          ++ strBytes ("Content-Type: image/jpeg\r\n\r\n")
          ++ (b.imencode jpegParams80 f).2 ++ strBytes ("\r\n")),
       GenState.finished,
       ⟨[d], 1, (if b.actualRes ≠ res then 1 else 0),
        fs.map (fun _ => jpegParams80)⟩) := by
  have hfil : fs.filter (fun f => (b.imencode jpegParams80 f).1) = fs :=
    filter_all_true _ fs hAll
  have h := cm_full_run b d res fs rest n hOpen hReads (by rw [hfil]; omega)
  rw [filterMap_if_all (fun f => (b.imencode jpegParams80 f).1)
    (fun f => frameChunk (b.imencode jpegParams80 f).2) fs hAll] at h
  simpa [frameChunk] using h

/-- Witness for C1 at a concrete three-frame backend. -/
theorem c1_chunk_per_frame_w :
    pullN (cmNext bTest) 4 (.start 0 (1280, 720)) =
      ([[10], [20], [30]].map (fun f => strBytes ("--frame\r\n")
          ++ strBytes ("Content-Type: image/jpeg\r\n\r\n")
          ++ (bTest.imencode jpegParams80 f).2 ++ strBytes ("\r\n")),
       GenState.finished,
       ⟨[0], 1, (if bTest.actualRes ≠ (1280, 720) then 1 else 0),
        [[10], [20], [30]].map (fun _ => jpegParams80)⟩) :=
  c1_chunk_per_frame bTest 0 (1280, 720) [[10], [20], [30]] [] 4 rfl rfl
    (by decide) (by decide)

/-- C2: when the device opened successfully and the consumer abandons
the stream after pulling `M < N` chunks, the pull phase releases
nothing, closing the suspended generator releases the device exactly
once (so exactly one release in total before the pipeline is
discarded), and closing an already-finished generator performs no
second release. -/
theorem c2_abandon_releases_once (b : Backend) (d : Int) (res : Int × Int)
    (fs : List (List Nat)) (tail : List ReadResult) (M : Nat)
    (hOpen : b.openOk d = true)
    (hReads : b.reads = fs.map ReadResult.frame ++ tail)
    (hAll : ∀ f ∈ fs, (b.imencode jpegParams80 f).1 = true)
    (hM : 1 ≤ M) (hMN : M < fs.length) :
    pullN (cmNext b) M (.start d res) =
      ((fs.take M).map (fun f => frameChunk (b.imencode jpegParams80 f).2),
       .streaming ((fs.drop M).map ReadResult.frame ++ tail),
       ⟨[d], 0, (if b.actualRes ≠ res then 1 else 0),
        (fs.take M).map (fun _ => jpegParams80)⟩) ∧
    (pullN (cmNext b) M (.start d res)).2.2.releaseCalls
        + (cmClose (pullN (cmNext b) M (.start d res)).2.1).releaseCalls = 1 ∧
    cmClose GenState.finished = Effects.nil := by
  have h1 := pull_start_open b d res M hOpen (by omega)
  rw [hReads] at h1
  rw [pull_streaming_take b M fs tail hAll (by omega)] at h1
  have h2 : pullN (cmNext b) M (.start d res) =
      ((fs.take M).map (fun f => frameChunk (b.imencode jpegParams80 f).2),
       .streaming ((fs.drop M).map ReadResult.frame ++ tail),
       ⟨[d], 0, (if b.actualRes ≠ res then 1 else 0),
        (fs.take M).map (fun _ => jpegParams80)⟩) := by simpa using h1
  refine ⟨h2, ?_, rfl⟩
  rw [h2]
  simp [cmClose]

/-- Witness for C2: two chunks pulled out of three available, then the
generator is closed. -/
theorem c2_abandon_releases_once_w :
    pullN (cmNext bTest) 2 (.start 0 (1280, 720)) =
      (([[10], [20], [30]].take 2).map
          (fun f => frameChunk (bTest.imencode jpegParams80 f).2),
       .streaming (([[10], [20], [30]].drop 2).map ReadResult.frame
          ++ [ReadResult.fail]),
       ⟨[0], 0, (if bTest.actualRes ≠ (1280, 720) then 1 else 0),
        ([[10], [20], [30]].take 2).map (fun _ => jpegParams80)⟩) ∧
    (pullN (cmNext bTest) 2 (.start 0 (1280, 720))).2.2.releaseCalls
        + (cmClose (pullN (cmNext bTest) 2 (.start 0 (1280, 720))).2.1).releaseCalls
        = 1 ∧
    cmClose GenState.finished = Effects.nil :=
  c2_abandon_releases_once bTest 0 (1280, 720) [[10], [20], [30]]
    [ReadResult.fail] 2 rfl rfl (by decide) (by omega) (by decide)

/-- C3: a device identifier that `int()` cannot interpret makes
`generate_frames` (camera_module.py) yield an empty sequence with zero
open calls and zero release calls, however many pulls the consumer
attempts and also if it then closes the generator. -/
theorem c3_malformed_id_no_effects (b : Backend) (d : PyValue)
    (res : Int × Int) (n : Nat) (hD : pyInt d = none) :
    (pullN (cgNext b) n (.start d res)).1 = [] ∧
    (pullN (cgNext b) n (.start d res)).2.2 = Effects.nil ∧
    cgClose (pullN (cgNext b) n (.start d res)).2.1 = Effects.nil := by
  cases n with
  | zero => exact ⟨rfl, rfl, rfl⟩
  | succ m => refine ⟨?_, ?_, ?_⟩ <;> simp [pullN, cgNext, hD, cgClose]

/-- Witness for C3 at the non-numeric token `"abc"`. -/
theorem c3_malformed_id_no_effects_w :
    (pullN (cgNext bTest) 1 (.start (.str ("abc")) (640, 480))).1 = [] ∧
    (pullN (cgNext bTest) 1 (.start (.str ("abc")) (640, 480))).2.2
        = Effects.nil ∧
    cgClose (pullN (cgNext bTest) 1 (.start (.str ("abc")) (640, 480))).2.1
        = Effects.nil :=
  c3_malformed_id_no_effects bTest (.str ("abc")) (640, 480) 1 rfl

/-- C4: against a backend whose device fails to open, `generate_frames`
yields an empty sequence without raising, with one open attempt and
zero release calls (hence zero-or-one and never a double release), and
closing the finished generator releases nothing further. -/
theorem c4_open_failure_empty (b : Backend) (d : Int) (res : Int × Int)
    (n : Nat) (hOpen : b.openOk d = false) (hn : 1 ≤ n) :
    pullN (cmNext b) n (.start d res)
        = ([], GenState.finished, ⟨[d], 0, 0, []⟩) ∧
    cmClose GenState.finished = Effects.nil := by
  obtain ⟨m, rfl⟩ : ∃ m, n = m + 1 := ⟨n - 1, by omega⟩
  exact ⟨by simp [pullN, cmNext, hOpen], rfl⟩

/-- Witness for C4 at a backend that never opens. -/
theorem c4_open_failure_empty_w :
    pullN (cmNext bFail) 1 (.start 5 (640, 480))
        = ([], GenState.finished, ⟨[5], 0, 0, []⟩) ∧
    cmClose GenState.finished = Effects.nil :=
  c4_open_failure_empty bFail 5 (640, 480) 1 rfl (by omega)

/-- C5: when among the `N` pulled frames exactly the frame `fk` fails
to encode, the stream produces exactly `N - 1` chunks (none for `fk`,
the loop continuing past it), then terminates cleanly with exactly one
release call. -/
theorem c5_encode_failure_skipped (b : Backend) (d : Int) (res : Int × Int)
    (u : List (List Nat)) (fk : List Nat) (v : List (List Nat))
    (rest : List ReadResult) (n : Nat)
    (hOpen : b.openOk d = true)
    (hReads : b.reads = (u ++ fk :: v).map ReadResult.frame
        ++ ReadResult.fail :: rest)
    (hU : ∀ f ∈ u, (b.imencode jpegParams80 f).1 = true)
    (hV : ∀ f ∈ v, (b.imencode jpegParams80 f).1 = true)
    (hK : (b.imencode jpegParams80 fk).1 = false)
    (hn : (u ++ fk :: v).length + 1 ≤ n) :
    pullN (cmNext b) n (.start d res) =
      ((u ++ v).map (fun f => frameChunk (b.imencode jpegParams80 f).2),
       GenState.finished,
       ⟨[d], 1, (if b.actualRes ≠ res then 1 else 0),
        (u ++ fk :: v).map (fun _ => jpegParams80)⟩) ∧
    ((u ++ v).map (fun f => frameChunk (b.imencode jpegParams80 f).2)).length
        = (u ++ fk :: v).length - 1 := by
  have hle : ((u ++ fk :: v).filter
      (fun f => (b.imencode jpegParams80 f).1)).length + 1 ≤ n := by
    have := List.length_filter_le
      (fun f => (b.imencode jpegParams80 f).1) (u ++ fk :: v)
    omega
  have h := cm_full_run b d res (u ++ fk :: v) rest n hOpen hReads hle
  rw [filterMap_skip_middle (fun f => (b.imencode jpegParams80 f).1)
    (fun f => frameChunk (b.imencode jpegParams80 f).2) u v fk hU hV hK] at h
  refine ⟨h, ?_⟩
  simp [List.length_append]

/-- Witness for C5: the middle of three frames fails to encode, two
chunks result. -/
theorem c5_encode_failure_skipped_w :
    pullN (cmNext bSkip) 4 (.start 0 (640, 480)) =
      (([[10]] ++ [[30]]).map
          (fun f => frameChunk (bSkip.imencode jpegParams80 f).2),
       GenState.finished,
       ⟨[0], 1, (if bSkip.actualRes ≠ (640, 480) then 1 else 0),
        ([[10]] ++ [20] :: [[30]]).map (fun _ => jpegParams80)⟩) ∧
    (([[10]] ++ [[30]]).map
        (fun f => frameChunk (bSkip.imencode jpegParams80 f).2)).length
      = ([[10]] ++ [20] :: [[30]]).length - 1 :=
  c5_encode_failure_skipped bSkip 0 (640, 480) [[10]] [20] [[30]] [] 4 rfl rfl
    (by decide) (by decide) (by decide) (by decide)

/-- C6 (counterexample): against a backend where no probe opens,
`get_available_cameras` makes ten open calls (`cv2.VideoCapture(i)` for
every probed index) and zero release calls, so the number of release
calls does not equal the number of open calls. -/
theorem c6_counterexample :
    ¬ (get_available_cameras (fun _ => false)).2.2.length
        = (get_available_cameras (fun _ => false)).2.1.length := by
  intro h
  have h1 : (get_available_cameras (fun _ => false)).2.2.length = 0 := rfl
  have h2 : (get_available_cameras (fun _ => false)).2.1.length = 10 := rfl
  omega

/-- C6 (amended): enumeration releases exactly the successfully opened
handles: over any probe list the open calls are all probed indices and
the release calls are exactly the indices whose open succeeded, so
every successfully opened handle is released before returning and no
handle is left open — but failed open attempts receive no release
call. -/
theorem c6_release_equals_successful_opens (openOk : Nat → Bool)
    (L : List Nat) :
    (enumProbe openOk L).2.1 = L ∧
    (enumProbe openOk L).2.2 = L.filter openOk ∧
    (get_available_cameras openOk).2.1 = List.range 10 ∧
    (get_available_cameras openOk).2.2 = (List.range 10).filter openOk := by
  obtain ⟨_, h2, h3⟩ := enumProbe_spec openOk L
  obtain ⟨_, g2, g3⟩ := enumProbe_spec openOk (List.range 10)
  exact ⟨h2, h3, g2, g3⟩

/-- C7: for every probe bound, enumeration returns exactly the indices
in `[0, maxIndex)` whose open attempt succeeded — never one that failed
to open — in ascending index order, each labelled `"Device " + index`
(the empty mapping when none opened); `get_available_cameras` is this
enumeration at the fixed bound 10. -/
theorem c7_enumeration_exact (openOk : Nat → Bool) (maxIndex : Nat) :
    (enumProbe openOk (List.range maxIndex)).1 =
      ((List.range maxIndex).filter openOk).map
        (fun i => (i, deviceLabel i)) ∧
    ((enumProbe openOk (List.range maxIndex)).1).Pairwise
      (fun p q => p.1 < q.1) ∧
    get_available_cameras openOk = enumProbe openOk (List.range 10) := by
  obtain ⟨h1, _, _⟩ := enumProbe_spec openOk (List.range maxIndex)
  refine ⟨h1, ?_, rfl⟩
  rw [h1, List.pairwise_map]
  exact (List.pairwise_lt_range maxIndex).filter _

/-- C8 (counterexample): the module-level `generate_frames`
(camera_module.py line 84) calls `cv2.imencode('.jpg', frame)` with no
parameter list, so its one encode call in this run carries no
`IMWRITE_JPEG_QUALITY` entry at all — the fixed quality-80 setting is
not applied on every encode call of the repository's pipelines. -/
theorem c8_counterexample :
    ¬ (∀ ps ∈ (pullN (cgNext bOne) 2
          (.start (.int 0) (640, 480))).2.2.encodeCalls,
        List.lookup IMWRITE_JPEG_QUALITY ps = some 80) := by
  intro h
  have h1 : (pullN (cgNext bOne) 2
      (.start (.int 0) (640, 480))).2.2.encodeCalls = [[]] := rfl
  have h2 := h [] (by rw [h1]; simp)
  simp [List.lookup] at h2

/-- C8 (amended): every `cv2.imencode` call made during any consumer
run of `CameraManager.generate_frames` (module1.py) passes the fixed
parameter list `[IMWRITE_JPEG_QUALITY, 80]` — quality 80 of 100,
substantially below lossless. -/
theorem c8_quality80_every_encode (b : Backend) (s : GenState) (n : Nat) :
    ((pullN (cmNext b) n s).2.2.encodeCalls.all
        (fun ps => ps == jpegParams80)) = true ∧
    List.lookup IMWRITE_JPEG_QUALITY jpegParams80 = some 80 ∧ 80 < 100 := by
  refine ⟨?_, rfl, by omega⟩
  rw [List.all_eq_true]
  intro ps hps
  exact beq_iff_eq.mpr (pullN_encodes b n s ps hps)

/-- C9: when the resolution the backend reports differs from the
request, `CameraManager.generate_frames` does not abort: it emits
exactly one mismatch warning and produces exactly the chunks, release
call and encode calls of the run whose request matches the negotiated
resolution (which warns zero times). -/
theorem c9_resolution_mismatch_nonfatal (b : Backend) (d : Int)
    (res : Int × Int) (fs : List (List Nat)) (rest : List ReadResult)
    (n : Nat) (hOpen : b.openOk d = true)
    (hReads : b.reads = fs.map ReadResult.frame ++ ReadResult.fail :: rest)
    (hn : (fs.filter (fun f => (b.imencode jpegParams80 f).1)).length + 1 ≤ n)
    (hMis : b.actualRes ≠ res) :
    pullN (cmNext b) n (.start d res) =
      (fs.filterMap (fun f => if (b.imencode jpegParams80 f).1
          then some (frameChunk (b.imencode jpegParams80 f).2) else none),
       GenState.finished,
       ⟨[d], 1, 1, fs.map (fun _ => jpegParams80)⟩) ∧
    pullN (cmNext b) n (.start d b.actualRes) =
      (fs.filterMap (fun f => if (b.imencode jpegParams80 f).1
          then some (frameChunk (b.imencode jpegParams80 f).2) else none),
       GenState.finished,
       ⟨[d], 1, 0, fs.map (fun _ => jpegParams80)⟩) := by
  have h1 := cm_full_run b d res fs rest n hOpen hReads hn
  have h2 := cm_full_run b d b.actualRes fs rest n hOpen hReads hn
  rw [if_pos hMis] at h1
  rw [if_neg (by simp)] at h2
  exact ⟨h1, h2⟩

/-- Witness for C9: 1920x1080 requested, 1280x720 negotiated, three
chunks still produced. -/
theorem c9_resolution_mismatch_nonfatal_w :
    pullN (cmNext bTest) 4 (.start 0 (1920, 1080)) =
      ([[10], [20], [30]].filterMap
          (fun f => if (bTest.imencode jpegParams80 f).1
            then some (frameChunk (bTest.imencode jpegParams80 f).2)
            else none),
       GenState.finished,
       ⟨[0], 1, 1, [[10], [20], [30]].map (fun _ => jpegParams80)⟩) ∧
    pullN (cmNext bTest) 4 (.start 0 bTest.actualRes) =
      ([[10], [20], [30]].filterMap
          (fun f => if (bTest.imencode jpegParams80 f).1
            then some (frameChunk (bTest.imencode jpegParams80 f).2)
            else none),
       GenState.finished,
       ⟨[0], 1, 0, [[10], [20], [30]].map (fun _ => jpegParams80)⟩) :=
  c9_resolution_mismatch_nonfatal bTest 0 (1920, 1080) [[10], [20], [30]]
    [] 4 rfl rfl (by decide) (by decide)

/-- C10: `generate_frames` performs no non-negativity or range check on
an integer device identifier: for every integer, including every
negative one, the open attempt is issued with exactly that index, and
when the open fails the generator terminates totally — empty sequence,
no exception modelled, zero releases — through the ordinary
open-failure path. -/
theorem c10_no_range_check (b : Backend) (i : Int) (res : Int × Int)
    (n : Nat) (hn : 1 ≤ n) (hOpen : b.openOk i = false) :
    (cgNext b (.start (.int i) res)).2.2.openCalls = [i] ∧
    pullN (cgNext b) n (.start (.int i) res)
        = ([], CGenState.finished, ⟨[i], 0, 0, []⟩) := by
  obtain ⟨m, rfl⟩ : ∃ m, n = m + 1 := ⟨n - 1, by omega⟩
  refine ⟨?_, ?_⟩
  · simp [cgNext, pyInt, hOpen]
  · simp [pullN, cgNext, pyInt, hOpen]

/-- Witness for C10 at the negative identifier `-3`. -/
theorem c10_no_range_check_w :
    (cgNext bFail (.start (.int (-3)) (640, 480))).2.2.openCalls = [-3] ∧
    pullN (cgNext bFail) 1 (.start (.int (-3)) (640, 480))
        = ([], CGenState.finished, ⟨[-3], 0, 0, []⟩) :=
  c10_no_range_check bFail (-3) (640, 480) 1 (by omega) rfl
